import Mathlib

/-!
Shallow embedding of `src/neuralprophet/metrics.py`: a running-average
accumulator (`Metric`) and its four concrete variants (MAE, MSE, Loss,
Value).  Numeric values are modelled as rationals (exact arithmetic over
the scalar reductions the module composes); tensors appearing as inputs
are modelled as lists of rationals, and the scalar result of an injected
loss function as a value paired with its shape.  Python exceptions raised
after in-place mutation are modelled by returning the mutated state
together with an optional error.
-/

namespace NeuralProphet

/-- The mutable fields of a `Metric` instance (`metrics.py`, `Metric.__init__`). -/
structure MetricState where
  name : String
  _sum : ℚ
  _num_examples : ℚ
  stored_values : List ℚ
  total_updates : ℕ
deriving DecidableEq, Repr

/-- Errors raised by the module: `no_sample_error` from `compute`, and the
`ValueError` for a non-scalar loss in `Loss.update`. -/
inductive MetricError where
  | noSample (name : String)
  | shape
deriving DecidableEq, Repr

/-- The result of calling an injected loss function: a tensor modelled by
its shape together with its scalar content (`.item()`). -/
structure TensorResult where
  shape : List ℕ
  item : ℚ
deriving DecidableEq, Repr

/-- An injected loss-function collaborator: its dynamic class name
(`loss_fn.__class__.__name__`) and the callable itself. -/
structure LossFn where
  className : String
  fn : List ℚ → List ℚ → TensorResult

/-- `Metric.__init__(self, name=None)`: `className` stands for
`self.__class__.__name__`, which in Python is the dynamic (most derived)
class of the instance under construction. -/
def mkMetric (className : String) (name : Option String) : MetricState :=
  { name := name.getD className
    _sum := 0
    _num_examples := 0
    stored_values := []
    total_updates := 0 }

/-- `Metric.reset`: zeroes `_sum` and `_num_examples`. -/
def MetricState.reset (m : MetricState) : MetricState :=
  { m with _sum := 0, _num_examples := 0 }

/-- `Metric.compute(self, save=False)`: raises via `no_sample_error` when
`_num_examples == 0`, otherwise returns `_sum / _num_examples`, appending
the value to `stored_values` when `save` is true. -/
def MetricState.compute (m : MetricState) (save : Bool) :
    Except MetricError (ℚ × MetricState) :=
  if m._num_examples = 0 then Except.error (MetricError.noSample m.name)
  else
    let value := m._sum / m._num_examples
    if save then
      Except.ok (value, { m with stored_values := m.stored_values ++ [value] })
    else Except.ok (value, m)

/-- `Metric.__str__`: formats `name` with `self.compute()`; the numeric
formatting itself is cosmetic, what matters is that it calls `compute`
with `save=False` and propagates its error. -/
def MetricState.render (m : MetricState) : Except MetricError String :=
  match m.compute false with
  | Except.error e => Except.error e
  | Except.ok (v, _) => Except.ok (m.name ++ ": " ++ toString v)

/-- The base `Metric.update`: increments `total_updates` and does nothing
else (`pass`). -/
def MetricState.update (m : MetricState) (predicted target : List ℚ) :
    MetricState :=
  let _ := predicted
  let _ := target
  { m with total_updates := m.total_updates + 1 }

/-- `MAE.__init__` calls `super().__init__()` with no name, and
`self.__class__.__name__` is `"MAE"`. -/
def mkMAE : MetricState := mkMetric "MAE" none

/-- `MAE.update`: mean of the elementwise absolute errors, weighted by
`target.shape[0]` (the length of the 1-D target). -/
def MAE.update (m : MetricState) (predicted target : List ℚ) : MetricState :=
  let num : ℚ := (target.length : ℚ)
  let absolute_errors := List.zipWith (fun p t => |p - t|) predicted target
  let meanAbs := absolute_errors.sum / (absolute_errors.length : ℚ)
  { m with total_updates := m.total_updates + 1
           _sum := m._sum + meanAbs * num
           _num_examples := m._num_examples + num }

/-- `MSE.__init__` calls `super().__init__()` with no name. -/
def mkMSE : MetricState := mkMetric "MSE" none

/-- `MSE.update`: mean of the elementwise squared errors, weighted by
`target.shape[0]`. -/
def MSE.update (m : MetricState) (predicted target : List ℚ) : MetricState :=
  let num : ℚ := (target.length : ℚ)
  let squared_errors := List.zipWith (fun p t => (p - t) ^ 2) predicted target
  let meanSq := squared_errors.sum / (squared_errors.length : ℚ)
  { m with total_updates := m.total_updates + 1
           _sum := m._sum + meanSq * num
           _num_examples := m._num_examples + num }

/-- `Loss.__init__(self, loss_fn)`: passes
`name=loss_fn.__class__.__name__` to the base constructor. -/
def mkLoss (loss_fn : LossFn) : MetricState :=
  mkMetric "Loss" (some loss_fn.className)

/-- `Loss.update`: increments the counter, evaluates the injected loss
function, raises when its result is not zero-dimensional, otherwise
accumulates `average_loss.item() * num`.  The returned state is the state
of the Python object when the call returns or when the exception
propagates (the counter increment has already happened either way). -/
def Loss.update (loss_fn : LossFn) (m : MetricState)
    (predicted target : List ℚ) : MetricState × Option MetricError :=
  let m1 := { m with total_updates := m.total_updates + 1 }
  let num : ℚ := (target.length : ℚ)
  let average_loss := loss_fn.fn predicted target
  if average_loss.shape.length ≠ 0 then (m1, some MetricError.shape)
  else
    ({ m1 with _sum := m1._sum + average_loss.item * num
               _num_examples := m1._num_examples + num }, none)

/-- `Value.__init__(self, name)`: the name is mandatory. -/
def mkValue (name : String) : MetricState := mkMetric "Value" (some name)

/-- `Value.update(self, avg_value, num)`: accumulates the caller-supplied
average with the caller-supplied weight, with no sign check on `num`. -/
def Value.update (m : MetricState) (avg_value : ℚ) (num : ℤ) : MetricState :=
  { m with total_updates := m.total_updates + 1
           _sum := m._sum + avg_value * (num : ℚ)
           _num_examples := m._num_examples + (num : ℚ) }

/-- The common accumulation step every variant performs on success: add
`reduction * weight` to `_sum`, add `weight` to `_num_examples`, and
increment `total_updates`. -/
def genericUpdate (m : MetricState) (r n : ℚ) : MetricState :=
  { m with total_updates := m.total_updates + 1
           _sum := m._sum + r * n
           _num_examples := m._num_examples + n }

/-- A sequence of successful updates described by their (reduction,
weight) contributions. -/
def applyUpdates (m : MetricState) (contribs : List (ℚ × ℚ)) : MetricState :=
  contribs.foldl (fun s c => genericUpdate s c.1 c.2) m

/-- The per-batch reduction performed by `MAE.update`. -/
def maeReduction (predicted target : List ℚ) : ℚ :=
  (List.zipWith (fun p t => |p - t|) predicted target).sum /
    ((List.zipWith (fun p t => |p - t|) predicted target).length : ℚ)

/-- The per-batch reduction performed by `MSE.update`. -/
def mseReduction (predicted target : List ℚ) : ℚ :=
  (List.zipWith (fun p t => (p - t) ^ 2) predicted target).sum /
    ((List.zipWith (fun p t => (p - t) ^ 2) predicted target).length : ℚ)

/-- A run of `MAE.update` calls from a fresh MAE accumulator. -/
def runMAE (updates : List (List ℚ × List ℚ)) : MetricState :=
  updates.foldl (fun s u => MAE.update s u.1 u.2) mkMAE

/-- A run of `MSE.update` calls from a fresh MSE accumulator. -/
def runMSE (updates : List (List ℚ × List ℚ)) : MetricState :=
  updates.foldl (fun s u => MSE.update s u.1 u.2) mkMSE

/-- A concrete injected loss function of class `MSELoss` returning a proper
scalar, used to exercise the Loss variant on concrete inputs. -/
def mseLossFn : LossFn :=
  { className := "MSELoss", fn := fun _ _ => { shape := [], item := 2 } }

/-- A concrete injected loss function that violates the scalar contract by
returning a 1-element 1-D tensor. -/
def badLossFn : LossFn :=
  { className := "BadLoss", fn := fun _ _ => { shape := [1], item := 2 } }

/-- C4: `reset()` zeroes `running_sum` and `sample_count` and changes
nothing else — `history`, `update_count` and `name` are untouched — and a
`compute()` right after a `reset()` raises `NoSampleError`. -/
theorem reset_frame (m : MetricState) :
    m.reset = { m with _sum := 0, _num_examples := 0 }
    ∧ m.reset.stored_values = m.stored_values
    ∧ m.reset.total_updates = m.total_updates
    ∧ m.reset.name = m.name
    ∧ m.reset._sum = 0
    ∧ m.reset._num_examples = 0
    ∧ ∀ save, m.reset.compute save = Except.error (MetricError.noSample m.name) := by
  refine ⟨rfl, rfl, rfl, rfl, rfl, rfl, fun save => ?_⟩
  simp [MetricState.reset, MetricState.compute]

/-- C7 counterexample: a Generic-Loss accumulator built from a loss
function of class `MSELoss` is named `"MSELoss"`, not after its own type
`Loss`; the default name is the loss function's type name. -/
theorem loss_name_not_type_name : (mkLoss mseLossFn).name ≠ "Loss" := by
  decide

/-- C7 (amended): MAE and MSE default their name to their own type name;
the Generic-Loss variant defaults its name to the injected loss function's
type name (not "Loss"); Raw-Value always takes an explicit name; the base
constructor uses the dynamic class name only when no name is given. -/
theorem name_defaults (f : LossFn) (nm cn : String) :
    mkMAE.name = "MAE"
    ∧ mkMSE.name = "MSE"
    ∧ (mkLoss f).name = f.className
    ∧ (mkValue nm).name = nm
    ∧ (mkMetric cn (some nm)).name = nm
    ∧ (mkMetric cn none).name = cn := by
  exact ⟨rfl, rfl, rfl, rfl, rfl, rfl⟩

/-- C10: the base `Metric.update` is a counted no-op — it increments
`update_count` by exactly 1 and leaves `running_sum`, `sample_count` and
`history` unchanged — while each variant's own `update` performs its own
single increment per call. -/
theorem base_update_noop (m : MetricState) (p t : List ℚ) (f : LossFn)
    (v : ℚ) (n : ℤ) :
    MetricState.update m p t = { m with total_updates := m.total_updates + 1 }
    ∧ (MetricState.update m p t)._sum = m._sum
    ∧ (MetricState.update m p t)._num_examples = m._num_examples
    ∧ (MetricState.update m p t).stored_values = m.stored_values
    ∧ (MAE.update m p t).total_updates = m.total_updates + 1
    ∧ (MSE.update m p t).total_updates = m.total_updates + 1
    ∧ (Loss.update f m p t).1.total_updates = m.total_updates + 1
    ∧ (Value.update m v n).total_updates = m.total_updates + 1 := by
  refine ⟨rfl, rfl, rfl, rfl, rfl, rfl, ?_, rfl⟩
  unfold Loss.update
  by_cases h : (f.fn p t).shape.length ≠ 0 <;> simp [h]

/-- C2: `compute` fails with `NoSampleError` exactly when `sample_count`
is zero, otherwise returns `running_sum / sample_count`; the string render
raises the same error whenever `compute` would, so rendering a fresh or
just-reset accumulator fails with it. -/
theorem compute_no_sample (m : MetricState) (save : Bool) :
    (m.compute save = Except.error (MetricError.noSample m.name) ↔
      m._num_examples = 0)
    ∧ (m._num_examples ≠ 0 →
        ∃ m', m.compute save = Except.ok (m._sum / m._num_examples, m'))
    ∧ (m._num_examples = 0 →
        m.render = Except.error (MetricError.noSample m.name))
    ∧ (∀ cn nm, (mkMetric cn nm).render =
        Except.error (MetricError.noSample (nm.getD cn)))
    ∧ m.reset.render = Except.error (MetricError.noSample m.name) := by
  refine ⟨?_, ?_, ?_, ?_, ?_⟩
  · by_cases h : m._num_examples = 0 <;> cases save <;>
      simp [MetricState.compute, h]
  · intro h
    cases save
    · exact ⟨m, by simp [MetricState.compute, h]⟩
    · exact ⟨{ m with stored_values :=
          m.stored_values ++ [m._sum / m._num_examples] },
        by simp [MetricState.compute, h]⟩
  · intro h
    simp [MetricState.render, MetricState.compute, h]
  · intro cn nm
    simp [MetricState.render, MetricState.compute, mkMetric]
  · simp [MetricState.render, MetricState.compute, MetricState.reset]

/-- C2 witness: a Raw-Value accumulator after one weighted update computes
its weighted mean, and a fresh one renders to `NoSampleError`. -/
theorem compute_no_sample_witness :
    (∃ m', (Value.update (mkValue "lr") 3 2).compute false =
      Except.ok ((Value.update (mkValue "lr") 3 2)._sum /
        (Value.update (mkValue "lr") 3 2)._num_examples, m'))
    ∧ (mkValue "lr").render = Except.error (MetricError.noSample "lr") :=
  ⟨(compute_no_sample (Value.update (mkValue "lr") 3 2) false).2.1
      (by norm_num [Value.update, mkValue, mkMetric]),
   (compute_no_sample (mkValue "lr") false).2.2.1 rfl⟩

/-- C3: on a state with positive `sample_count`, `compute(save=true)`
appends exactly the returned value to `history` and changes nothing else,
while `compute(save=false)` returns the state completely unchanged; in
neither case are `running_sum`, `sample_count` or `update_count`
mutated. -/
theorem compute_save_frame (m : MetricState) (h : 0 < m._num_examples) :
    ∃ v, m.compute true =
        Except.ok (v, { m with stored_values := m.stored_values ++ [v] })
      ∧ m.compute false = Except.ok (v, m) := by
  have hne : m._num_examples ≠ 0 := ne_of_gt h
  exact ⟨m._sum / m._num_examples,
    by simp [MetricState.compute, hne],
    by simp [MetricState.compute, hne]⟩

/-- C3 witness: concrete instance after one Raw-Value update. -/
theorem compute_save_frame_witness :
    ∃ v, (Value.update (mkValue "w3") 3 2).compute true =
        Except.ok (v, { Value.update (mkValue "w3") 3 2 with
          stored_values :=
            (Value.update (mkValue "w3") 3 2).stored_values ++ [v] })
      ∧ (Value.update (mkValue "w3") 3 2).compute false =
          Except.ok (v, Value.update (mkValue "w3") 3 2) :=
  compute_save_frame (Value.update (mkValue "w3") 3 2)
    (by norm_num [Value.update, mkValue, mkMetric])

/-- C5: every `update`, on every variant, increments `update_count` by
exactly 1, success or failure; in the Generic-Loss variant the increment
precedes the scalar-shape check, so a call failing with `ShapeError` still
leaves `update_count` one greater. -/
theorem update_count_increments (m : MetricState) (p t : List ℚ)
    (f : LossFn) (v : ℚ) (n : ℤ) :
    (MetricState.update m p t).total_updates = m.total_updates + 1
    ∧ (MAE.update m p t).total_updates = m.total_updates + 1
    ∧ (MSE.update m p t).total_updates = m.total_updates + 1
    ∧ (Loss.update f m p t).1.total_updates = m.total_updates + 1
    ∧ (Value.update m v n).total_updates = m.total_updates + 1
    ∧ ((Loss.update f m p t).2 = some MetricError.shape →
        (Loss.update f m p t).1.total_updates = m.total_updates + 1) := by
  have hLoss : (Loss.update f m p t).1.total_updates = m.total_updates + 1 := by
    unfold Loss.update
    by_cases h : (f.fn p t).shape.length ≠ 0 <;> simp [h]
  exact ⟨rfl, rfl, rfl, hLoss, rfl, fun _ => hLoss⟩

/-- C5 witness: a Generic-Loss update that fails the scalar-shape check
still leaves the counter incremented. -/
theorem update_count_increments_witness :
    (Loss.update badLossFn (mkLoss badLossFn) [1] [1]).1.total_updates =
      (mkLoss badLossFn).total_updates + 1 :=
  (update_count_increments (mkLoss badLossFn) [1] [1] badLossFn 0
      0).2.2.2.2.2 (by decide)

/-- C6: Generic-Loss `update` raises `ShapeError` exactly when the
injected loss function's result has nonzero rank, and on that failure the
only state change is the `update_count` increment (`running_sum`,
`sample_count` and `history` are untouched). -/
theorem loss_shape_error (f : LossFn) (m : MetricState) (p t : List ℚ) :
    ((Loss.update f m p t).2 = some MetricError.shape ↔
      (f.fn p t).shape.length ≠ 0)
    ∧ ((f.fn p t).shape.length = 0 → (Loss.update f m p t).2 = none)
    ∧ ((f.fn p t).shape.length ≠ 0 →
        (Loss.update f m p t).1 =
          { m with total_updates := m.total_updates + 1 }) := by
  refine ⟨?_, ?_, ?_⟩
  · by_cases h : (f.fn p t).shape.length = 0 <;> simp [Loss.update, h]
  · intro h; simp [Loss.update, h]
  · intro h; simp [Loss.update, h]

/-- C6 witness: a loss function returning a 1-element 1-D tensor fails
with only the counter incremented; a scalar-returning one succeeds. -/
theorem loss_shape_error_witness :
    (Loss.update badLossFn (mkLoss badLossFn) [1] [2]).1 =
      { mkLoss badLossFn with
          total_updates := (mkLoss badLossFn).total_updates + 1 }
    ∧ (Loss.update mseLossFn (mkLoss mseLossFn) [1] [2]).2 = none :=
  ⟨(loss_shape_error badLossFn (mkLoss badLossFn) [1] [2]).2.2 (by decide),
   (loss_shape_error mseLossFn (mkLoss mseLossFn) [1] [2]).2.1 (by decide)⟩

/-- Accumulated fields after a sequence of generic accumulation steps. -/
theorem applyUpdates_fields (contribs : List (ℚ × ℚ)) (m : MetricState) :
    (applyUpdates m contribs)._sum =
      m._sum + (contribs.map fun c => c.1 * c.2).sum
    ∧ (applyUpdates m contribs)._num_examples =
      m._num_examples + (contribs.map Prod.snd).sum := by
  induction contribs generalizing m with
  | nil => simp [applyUpdates]
  | cons c cs ih =>
    have h := ih (genericUpdate m c.1 c.2)
    simp only [applyUpdates, List.foldl_cons] at h ⊢
    simp only [List.map_cons, List.sum_cons]
    constructor
    · rw [h.1]
      simp only [genericUpdate]
      ring
    · rw [h.2]
      simp only [genericUpdate]
      ring

/-- C1: for any sequence of successful updates with reductions `r_i` and
weights `n_i` since the last reset, `compute()` returns exactly
`Σ(r_i * n_i) / Σ(n_i)`; and every variant's successful update is exactly
the generic step adding `reduction * weight` to `running_sum` and `weight`
to `sample_count`. -/
theorem weighted_mean_law (m : MetricState) (contribs : List (ℚ × ℚ))
    (hw : (contribs.map Prod.snd).sum ≠ 0) :
    (∃ m', (applyUpdates m.reset contribs).compute false =
      Except.ok ((contribs.map fun c => c.1 * c.2).sum /
        (contribs.map Prod.snd).sum, m'))
    ∧ (∀ s p t, MAE.update s p t =
        genericUpdate s (maeReduction p t) (t.length : ℚ))
    ∧ (∀ s p t, MSE.update s p t =
        genericUpdate s (mseReduction p t) (t.length : ℚ))
    ∧ (∀ (f : LossFn) s p t, (f.fn p t).shape.length = 0 →
        Loss.update f s p t =
          (genericUpdate s (f.fn p t).item (t.length : ℚ), none))
    ∧ (∀ s v (n : ℤ), Value.update s v n = genericUpdate s v (n : ℚ)) := by
  refine ⟨?_, fun s p t => rfl, fun s p t => rfl, ?_, fun s v n => rfl⟩
  · have h := applyUpdates_fields contribs m.reset
    have hsum : (applyUpdates m.reset contribs)._sum =
        (contribs.map fun c => c.1 * c.2).sum := by
      rw [h.1]; simp [MetricState.reset]
    have hnum : (applyUpdates m.reset contribs)._num_examples =
        (contribs.map Prod.snd).sum := by
      rw [h.2]; simp [MetricState.reset]
    refine ⟨applyUpdates m.reset contribs, ?_⟩
    rw [MetricState.compute]
    rw [hsum, hnum] at *
    simp [hnum ▸ hw, hsum, hnum]
  · intro f s p t h
    simp [Loss.update, genericUpdate, h]

/-- C1 witness: the spec's MAE scenario, reductions 1 and 5 with weights
3 and 1, computing (1*3 + 5*1)/(3 + 1) = 2. -/
theorem weighted_mean_law_witness :
    ∃ m', (applyUpdates mkMAE.reset [((1 : ℚ), (3 : ℚ)), (5, 1)]).compute
        false =
      Except.ok ((([((1 : ℚ), (3 : ℚ)), (5, 1)]).map fun c =>
        c.1 * c.2).sum / (([((1 : ℚ), (3 : ℚ)), (5, 1)]).map Prod.snd).sum,
        m') :=
  (weighted_mean_law mkMAE [(1, 3), (5, 1)] (by norm_num)).1

/-- Sums of pointwise non-negative zipped combinations are non-negative. -/
theorem zipWith_nonneg_sum (f : ℚ → ℚ → ℚ) (hf : ∀ a b, 0 ≤ f a b)
    (p t : List ℚ) : 0 ≤ (List.zipWith f p t).sum := by
  induction p generalizing t with
  | nil => simp
  | cons a as ih =>
    cases t with
    | nil => simp
    | cons b bs =>
      simpa [List.zipWith] using add_nonneg (hf a b) (ih bs)

/-- After any run of MAE updates, `running_sum` and `sample_count` stay
non-negative. -/
theorem maeFold_nonneg (updates : List (List ℚ × List ℚ)) (m : MetricState)
    (hs : 0 ≤ m._sum) (hn : 0 ≤ m._num_examples) :
    0 ≤ (updates.foldl (fun s u => MAE.update s u.1 u.2) m)._sum
    ∧ 0 ≤ (updates.foldl (fun s u =>
        MAE.update s u.1 u.2) m)._num_examples := by
  induction updates generalizing m with
  | nil => exact ⟨hs, hn⟩
  | cons u us ih =>
    refine ih (MAE.update m u.1 u.2) ?_ ?_
    · refine add_nonneg hs (mul_nonneg (div_nonneg ?_ ?_) ?_)
      · exact zipWith_nonneg_sum _ (fun a b => abs_nonneg _) u.1 u.2
      · exact Nat.cast_nonneg _
      · exact Nat.cast_nonneg _
    · exact add_nonneg hn (Nat.cast_nonneg _)

/-- After any run of MSE updates, `running_sum` and `sample_count` stay
non-negative. -/
theorem mseFold_nonneg (updates : List (List ℚ × List ℚ)) (m : MetricState)
    (hs : 0 ≤ m._sum) (hn : 0 ≤ m._num_examples) :
    0 ≤ (updates.foldl (fun s u => MSE.update s u.1 u.2) m)._sum
    ∧ 0 ≤ (updates.foldl (fun s u =>
        MSE.update s u.1 u.2) m)._num_examples := by
  induction updates generalizing m with
  | nil => exact ⟨hs, hn⟩
  | cons u us ih =>
    refine ih (MSE.update m u.1 u.2) ?_ ?_
    · refine add_nonneg hs (mul_nonneg (div_nonneg ?_ ?_) ?_)
      · exact zipWith_nonneg_sum _ (fun a b => sq_nonneg _) u.1 u.2
      · exact Nat.cast_nonneg _
      · exact Nat.cast_nonneg _
    · exact add_nonneg hn (Nat.cast_nonneg _)

/-- A successful `compute` on a state with non-negative `_sum` and
`_num_examples` yields a non-negative value. -/
theorem compute_ok_nonneg (m : MetricState) (p : ℚ × MetricState)
    (hs : 0 ≤ m._sum) (hn : 0 ≤ m._num_examples)
    (h : m.compute false = Except.ok p) : 0 ≤ p.1 := by
  rw [MetricState.compute] at h
  by_cases h0 : m._num_examples = 0
  · simp [h0] at h
  · simp [h0] at h
    rw [← h]
    exact div_nonneg hs hn

/-- C8: for the MAE and MSE variants, after any sequence of updates with
arbitrary rational inputs from a fresh accumulator, any value `compute()`
returns is non-negative. -/
theorem mae_mse_nonneg (uA uS : List (List ℚ × List ℚ))
    (pA pS : ℚ × MetricState)
    (hA : (runMAE uA).compute false = Except.ok pA)
    (hS : (runMSE uS).compute false = Except.ok pS) :
    0 ≤ pA.1 ∧ 0 ≤ pS.1 := by
  have hAinv := maeFold_nonneg uA mkMAE le_rfl le_rfl
  have hSinv := mseFold_nonneg uS mkMSE le_rfl le_rfl
  exact ⟨compute_ok_nonneg _ _ hAinv.1 hAinv.2 hA,
         compute_ok_nonneg _ _ hSinv.1 hSinv.2 hS⟩

/-- C8 witness: one MAE update with error 1 and one MSE update with
squared error 4, both computing non-negative values. -/
theorem mae_mse_nonneg_witness :
    0 ≤ ((1 : ℚ), runMAE [([1], [0])]).1
    ∧ 0 ≤ ((4 : ℚ), runMSE [([2], [0])]).1 :=
  mae_mse_nonneg [([1], [0])] [([2], [0])]
    (1, runMAE [([1], [0])]) (4, runMSE [([2], [0])])
    (by norm_num [runMAE, MAE.update, mkMAE, mkMetric, MetricState.compute])
    (by norm_num [runMSE, MSE.update, mkMSE, mkMetric, MetricState.compute])

/-- C9 counterexample: Raw-Value `update` performs no sign check on the
caller-supplied weight, so one update with `num = -1` drives
`sample_count` below zero in a reachable state. -/
theorem value_negative_count :
    (Value.update (mkValue "lr") 0 (-1))._num_examples < 0 := by
  norm_num [Value.update, mkValue, mkMetric]

/-- C9 (amended): `sample_count ≥ 0` holds at construction, after every
`reset()`, and is preserved by every MAE, MSE and Generic-Loss update;
Raw-Value's update preserves it only when the caller's `num` is
non-negative. -/
theorem sample_count_nonneg (m : MetricState) (p t : List ℚ) (f : LossFn)
    (v : ℚ) (n : ℤ) (cn : String) (nm : Option String)
    (hm : 0 ≤ m._num_examples) :
    0 ≤ (mkMetric cn nm)._num_examples
    ∧ 0 ≤ m.reset._num_examples
    ∧ 0 ≤ (MAE.update m p t)._num_examples
    ∧ 0 ≤ (MSE.update m p t)._num_examples
    ∧ 0 ≤ (Loss.update f m p t).1._num_examples
    ∧ (0 ≤ n → 0 ≤ (Value.update m v n)._num_examples) := by
  refine ⟨le_rfl, le_rfl, add_nonneg hm (Nat.cast_nonneg _),
    add_nonneg hm (Nat.cast_nonneg _), ?_, fun hn => ?_⟩
  · rw [Loss.update]
    by_cases h : (f.fn p t).shape.length ≠ 0
    · simpa [h] using hm
    · simpa [h] using add_nonneg hm (Nat.cast_nonneg _)
  · exact add_nonneg hm (by exact_mod_cast hn)

/-- C9 amended witness: a fresh Raw-Value accumulator updated with a
non-negative weight keeps `sample_count` non-negative. -/
theorem sample_count_nonneg_witness :
    0 ≤ (Value.update (mkValue "lr") 1 5)._num_examples :=
  (sample_count_nonneg (mkValue "lr") [] [] mseLossFn 1 5 "X" none
      le_rfl).2.2.2.2.2 (by decide)

end NeuralProphet
